import Mathlib

/-!
# Verification of the spina class-wrapping engine

A shallow embedding of the core of the spina object-model shim
(src/objects.ts): the construction-deferral protocol implemented by the
wrapper constructors produced by spinaBaseClassExtends and
_makeSpinaSubclass, and the class-preparation machinery (_automergeAttr,
_copyPrototypeAttr, _prepareSubclass, applyMixins) over a small JavaScript
object heap.

Two complementary models are used:

* a construction-chain model (SpinaChain / runCtor) embedding the two guarded
  constructors, the construction-mode sentinel (the module-private
  _constructing symbol), the static __spinaObjectID token lookup and the
  deferred initObject invocation;
* a heap model (Heap / Obj / JSVal) embedding JavaScript objects with own
  properties (in insertion order) and prototype chains, the underscore
  primitives used by the source (_.isFunction, _.isEmpty, _.defaults with
  its in-place mutation of the first argument), and line-by-line
  translations of _automergeAttr, _copyPrototypeAttr, applyMixins,
  _prepareSubclass, spinaBaseClassExtends and _makeSpinaSubclass.
-/

namespace Spina

/-! ## Construction-chain model

A class reachable by the engine is either a base wrapper (produced by
spinaBaseClassExtends), a plain user-authored class body extending another
class (its implicit constructor forwards all arguments to super), or a
subclass wrapper (produced by _makeSpinaSubclass).  Wrapper nodes carry the
classID minted from the module counter and the resolved display name. -/

/-- A constructor argument: either the module-private construction-mode
sentinel (the `_constructing` symbol) or an ordinary payload value. -/
inductive JArg where
  | sentinel
  | v (n : Nat)
deriving DecidableEq, Repr

/-- A class in a wrapped inheritance chain. -/
inductive SpinaChain where
  /-- A base wrapper produced by spinaBaseClassExtends. -/
  | base (classID : Nat) (name : String)
  /-- A plain user-authored class extending `parent` (implicit forwarding
  constructor); `hasOwnInitObject` records whether the class body declares
  its own initObject method. -/
  | user (parent : SpinaChain) (name : String) (hasOwnInitObject : Bool)
  /-- A subclass wrapper produced by _makeSpinaSubclass around `parent`. -/
  | sub (classID : Nat) (name : String) (parent : SpinaChain)
deriving DecidableEq, Repr

/-- The `name` of a class (used in the thrown error messages). -/
def chainName : SpinaChain → String
  | .base _ n => n
  | .user _ n _ => n
  | .sub _ n _ => n

/-- `C.__spinaObjectID` read off the class with static inheritance: wrapper
classes own the static field, plain user classes inherit their parent's. -/
def staticSpinaID : SpinaChain → Nat
  | .base cid _ => cid
  | .sub cid _ _ => cid
  | .user p _ _ => staticSpinaID p

/-- `new.target.prototype.__spinaObjectID`, looked up along the prototype
chain.  The class bodies in this universe declare `__spinaObjectID` only as
a static member and as an instance field, never on a prototype, so the
lookup finds nothing at every level of the chain. -/
def protoChainSpinaID : SpinaChain → Option Nat
  | .base _ _ => none
  | .user p _ _ => protoChainSpinaID p
  | .sub _ _ p => protoChainSpinaID p

/-- Truthiness of `this['initObject']` on an instance whose prototype chain
is the given class chain: the base wrapper always defines an initObject
method on its prototype, and user classes may additionally override it. -/
def chainHasInitObject : SpinaChain → Bool
  | .base _ _ => true
  | .user p _ own => own || chainHasInitObject p
  | .sub _ _ p => chainHasInitObject p

/-- Number of extends-steps above the base wrapper. -/
def chainDepth : SpinaChain → Nat
  | .base _ _ => 0
  | .user p _ _ => chainDepth p + 1
  | .sub _ _ p => chainDepth p + 1

/-- The two TypeError shapes thrown by the guarded constructors. -/
inductive CtorError where
  /-- Base wrapper constructed without the sentinel. -/
  | abstractInstantiation (name : String)
  /-- The most-derived requested class was never wrapped. -/
  | uninitializedSubclass (wrapperName targetName : String)
deriving DecidableEq, Repr

/-- The exact message text of each TypeError thrown by the source. -/
def ctorErrorMessage : CtorError → String
  | .abstractInstantiation n =>
      n ++ " is abstract and cannot be instantiated directly."
  | .uninitializedSubclass w t =>
      "Failed to instantiate " ++ w ++ " subclass (" ++ t ++
        "). It was not set up with spinaSubclass() or @spina."

/-- The object produced by a successful construction: `protoOf` is the class
whose `.prototype` the object was created from (`Object.create` at the base
wrapper with `new.target`), `initCalls` the list of argument lists passed to
`initObject`, and `token` the instance-level `__spinaObjectID` field after
the constructor chain unwinds (each wrapper's field initializer overwrites
it on the way out, so the most-derived wrapper's classID ends up stored). -/
structure Instance where
  protoOf : SpinaChain
  initCalls : List (List JArg)
  token : Option Nat
deriving DecidableEq, Repr

/-- Run the constructor of class `c` with `new.target = newTarget` and the
given arguments.  Translates the two wrapper constructor bodies
(spinaBaseClassExtends at src/objects.ts:1633-1660 and _makeSpinaSubclass at
src/objects.ts:1785-1813) plus the implicit forwarding constructor of plain
user class bodies. -/
def runCtor (newTarget : SpinaChain) : SpinaChain → List JArg → Except CtorError Instance
  | .base cid nm, args =>
    if args.head? = some .sentinel then
      if protoChainSpinaID newTarget = some cid then
        .error (.uninitializedSubclass nm (chainName newTarget))
      else
        .ok ⟨newTarget, [], none⟩
    else
      .error (.abstractInstantiation nm)
  | .user p _ _, args => runCtor newTarget p args
  | .sub cid nm p, args =>
    if args.head? = some .sentinel then
      (runCtor newTarget p args).map fun inst => { inst with token := some cid }
    else
      if newTarget ≠ SpinaChain.sub cid nm p ∧ staticSpinaID newTarget = cid then
        .error (.uninitializedSubclass nm (chainName newTarget))
      else
        match runCtor newTarget p (.sentinel :: args) with
        | .error e => .error e
        | .ok inst0 =>
          let inst := { inst0 with token := some cid }
          if newTarget = SpinaChain.sub cid nm p ∧ chainHasInitObject newTarget then
            .ok { inst with initCalls := inst.initCalls ++ [args] }
          else
            .ok inst

/-- `new target(args)`: the engine runs `target`'s own constructor with
`new.target = target`. -/
def construct (target : SpinaChain) (args : List JArg) : Except CtorError Instance :=
  runCtor target target args

/-- Stack a (nonempty, outermost-first) list of plain user class bodies on
top of a class, none of them processed by the subclass wrapper factory. -/
def wrapUsers : List (String × Bool) → SpinaChain → SpinaChain
  | [], c => c
  | (n, i) :: rest, c => .user (wrapUsers rest c) n i

/-- Whether a construction outcome is the UninitializedSubclass failure. -/
def isUninitializedError : Except CtorError Instance → Bool
  | .error (.uninitializedSubclass _ _) => true
  | _ => false

/-! ### Construction lemmas -/

theorem protoChainSpinaID_none (c : SpinaChain) : protoChainSpinaID c = none := by
  induction c with
  | base cid nm => rfl
  | user p nm own ih => simpa [protoChainSpinaID] using ih
  | sub cid nm p ih => simpa [protoChainSpinaID] using ih

theorem chainHasInitObject_true (c : SpinaChain) : chainHasInitObject c = true := by
  induction c with
  | base cid nm => rfl
  | user p nm own ih => simp [chainHasInitObject, ih]
  | sub cid nm p ih => simpa [chainHasInitObject] using ih

/-- A sentinel-headed call never invokes any hook and bottoms out at the base
wrapper's `Object.create(new.target.prototype)`; on the way out each subclass
wrapper's field initializer overwrites the instance token. -/
def sentinelInst (t : SpinaChain) : SpinaChain → Instance
  | .base _ _ => ⟨t, [], none⟩
  | .user p _ _ => sentinelInst t p
  | .sub cid _ p => { sentinelInst t p with token := some cid }

theorem sentinelInst_protoOf (t c : SpinaChain) : (sentinelInst t c).protoOf = t := by
  induction c with
  | base cid nm => rfl
  | user p nm own ih => simpa [sentinelInst] using ih
  | sub cid nm p ih => simpa [sentinelInst] using ih

theorem sentinelInst_initCalls (t c : SpinaChain) : (sentinelInst t c).initCalls = [] := by
  induction c with
  | base cid nm => rfl
  | user p nm own ih => simpa [sentinelInst] using ih
  | sub cid nm p ih => simpa [sentinelInst] using ih

theorem runCtor_sentinel (t : SpinaChain) (c : SpinaChain) (args : List JArg)
    (h : args.head? = some .sentinel) :
    runCtor t c args = .ok (sentinelInst t c) := by
  induction c with
  | base cid nm =>
    simp [runCtor, h, protoChainSpinaID_none, sentinelInst]
  | user p nm own ih =>
    simpa [runCtor, sentinelInst] using ih
  | sub cid nm p ih =>
    simp [runCtor, h, ih, sentinelInst, Except.map]

theorem chainDepth_sub_ne (cid : Nat) (nm : String) (p : SpinaChain) :
    SpinaChain.sub cid nm p ≠ p := by
  intro h
  have hd := congrArg chainDepth h
  simp [chainDepth] at hd

/-- Constructing a properly wrapped leaf succeeds: the instance's prototype
is the leaf wrapper's, initObject runs exactly once with the original
arguments, and the leaf wrapper's field initializer leaves its classID as
the instance token. -/
theorem construct_sub_ok (cid : Nat) (nm : String) (p : SpinaChain) (args : List JArg)
    (h : args.head? ≠ some JArg.sentinel) :
    construct (.sub cid nm p) args =
      .ok ⟨.sub cid nm p, [args], some cid⟩ := by
  have hs : (JArg.sentinel :: args).head? = some JArg.sentinel := rfl
  have hrun := runCtor_sentinel (SpinaChain.sub cid nm p) p (JArg.sentinel :: args) hs
  simp [construct, runCtor, h, hrun, chainHasInitObject_true,
    sentinelInst_protoOf, sentinelInst_initCalls]

theorem staticSpinaID_wrapUsers (specs : List (String × Bool)) (c : SpinaChain) :
    staticSpinaID (wrapUsers specs c) = staticSpinaID c := by
  induction specs with
  | nil => rfl
  | cons s rest ih => simpa [wrapUsers, staticSpinaID] using ih

theorem runCtor_wrapUsers (t : SpinaChain) (specs : List (String × Bool))
    (c : SpinaChain) (args : List JArg) :
    runCtor t (wrapUsers specs c) args = runCtor t c args := by
  induction specs with
  | nil => rfl
  | cons s rest ih => simpa [wrapUsers, runCtor] using ih

/-! ## Claim theorems on the construction model -/

/-- C2: for every properly wrapped leaf class (processed by the subclass
wrapper factory, transitively rooted at a base wrapper — every chain in this
model is rooted at a base wrapper by construction), `new Leaf(args)`
succeeds, invokes initObject exactly once with exactly the original
arguments (the sentinel never among them), and yields an object whose
prototype is the leaf wrapper's prototype, not the pre-wrap user-authored
class's; intermediate wrappers, receiving the sentinel, never invoke the
hook (exactly one invocation is recorded over the whole chain). -/
theorem construct_wrapped_leaf_initializes_once
    (cid : Nat) (nm : String) (p : SpinaChain) (args : List JArg)
    (h : JArg.sentinel ∉ args) :
    construct (.sub cid nm p) args = .ok ⟨.sub cid nm p, [args], some cid⟩
      ∧ SpinaChain.sub cid nm p ≠ p := by
  refine ⟨construct_sub_ok cid nm p args ?_, chainDepth_sub_ne cid nm p⟩
  intro hh
  cases args with
  | nil => simp at hh
  | cons a rest =>
    simp at hh
    exact h (hh ▸ List.mem_cons_self a rest)

theorem construct_wrapped_leaf_initializes_once_witness :
    construct (.sub 2 "_MyClass_" (.user (.base 1 "BaseClass") "MyClass" false))
        [JArg.v 7, JArg.v 8] =
      .ok ⟨.sub 2 "_MyClass_" (.user (.base 1 "BaseClass") "MyClass" false),
        [[JArg.v 7, JArg.v 8]], some 2⟩ :=
  (construct_wrapped_leaf_initializes_once 2 "_MyClass_"
    (.user (.base 1 "BaseClass") "MyClass" false) [JArg.v 7, JArg.v 8]
    (by decide)).1

/-- C3: constructing a class produced by the base wrapper factory directly
(first argument not the construction-mode sentinel) throws a TypeError whose
message identifies the class name as abstract; the result is an error, so no
instance is ever produced and no state is attached. -/
theorem construct_base_directly_abstract_error
    (cid : Nat) (nm : String) (args : List JArg)
    (h : args.head? ≠ some JArg.sentinel) :
    construct (.base cid nm) args = .error (.abstractInstantiation nm)
      ∧ ctorErrorMessage (.abstractInstantiation nm) =
          nm ++ " is abstract and cannot be instantiated directly." := by
  constructor
  · simp [construct, runCtor, h]
  · rfl

theorem construct_base_directly_abstract_error_witness :
    construct (.base 1 "BaseClass") [JArg.v 3] =
        .error (.abstractInstantiation "BaseClass")
      ∧ ctorErrorMessage (.abstractInstantiation "BaseClass") =
          "BaseClass is abstract and cannot be instantiated directly." :=
  construct_base_directly_abstract_error 1 "BaseClass" [JArg.v 3] (by decide)

/-- C4 (counterexample): the claim quantifies over every wrapper, but for a
strict subclass `F` of a *base* wrapper that carries the base wrapper's
token (never processed by the subclass wrapper factory), construction does
not throw UninitializedSubclass identifying `F`: the sentinel is never
introduced, so the base wrapper's constructor throws the
AbstractInstantiation TypeError naming the base class instead. -/
theorem base_subclass_not_uninitialized_error :
    staticSpinaID (.user (.base 1 "RBase") "F" false) = 1
      ∧ construct (.user (.base 1 "RBase") "F" false) [] =
          .error (.abstractInstantiation "RBase")
      ∧ isUninitializedError
          (construct (.user (.base 1 "RBase") "F" false) []) = false := by
  refine ⟨rfl, ?_, ?_⟩ <;> rfl

/-- C4 (amended): when the nearest wrapper above the most-derived requested
class is a *subclass* wrapper (the requested class and all classes between
it and that wrapper being plain unwrapped class bodies, which therefore
carry the wrapper's identity token), construction throws the
UninitializedSubclass TypeError naming the offending (requested) class,
synchronously, and no initialization hook runs (the call produces an error,
never an instance).  If the only wrapper in the chain is a base wrapper the
call instead fails with AbstractInstantiation naming the base class. -/
theorem construct_unwrapped_subclass_uninitialized_error
    (n : String) (i : Bool) (rest : List (String × Bool))
    (cid : Nat) (nm : String) (p : SpinaChain) (args : List JArg)
    (h : args.head? ≠ some JArg.sentinel) :
    construct (wrapUsers ((n, i) :: rest) (.sub cid nm p)) args =
      .error (.uninitializedSubclass nm n) := by
  have hT : wrapUsers ((n, i) :: rest) (.sub cid nm p)
      = SpinaChain.user (wrapUsers rest (.sub cid nm p)) n i := rfl
  have hne : SpinaChain.user (wrapUsers rest (.sub cid nm p)) n i
      ≠ SpinaChain.sub cid nm p := by simp
  have hid : staticSpinaID (SpinaChain.user (wrapUsers rest (.sub cid nm p)) n i)
      = cid := by
    simpa [staticSpinaID] using staticSpinaID_wrapUsers rest (.sub cid nm p)
  unfold construct
  rw [hT]
  rw [show runCtor (SpinaChain.user (wrapUsers rest (.sub cid nm p)) n i)
      (SpinaChain.user (wrapUsers rest (.sub cid nm p)) n i) args
      = runCtor (SpinaChain.user (wrapUsers rest (.sub cid nm p)) n i)
        (wrapUsers rest (.sub cid nm p)) args from rfl]
  rw [runCtor_wrapUsers]
  simp [runCtor, h, hne, hid, chainName]

theorem construct_unwrapped_subclass_uninitialized_error_witness :
    construct (wrapUsers [("E", false)]
        (.sub 2 "_MyClass_" (.user (.base 1 "BaseClass") "MyClass" false))) [] =
      .error (.uninitializedSubclass "_MyClass_" "E") :=
  construct_unwrapped_subclass_uninitialized_error "E" false [] 2 "_MyClass_"
    (.user (.base 1 "BaseClass") "MyClass" false) [] (by decide)

/-! ## Heap model of JavaScript objects

Classes, prototypes, attribute values and option records live in a heap of
objects addressed by natural-number references; reference equality is
equality of references.  An object's own properties are kept in insertion
order (JavaScript string-keyed property order); its `proto` link is the
internal prototype used for inherited property reads (for a class object
this is the parent class, giving static inheritance; for a prototype object
it is the parent prototype). -/

/-- A JavaScript value: primitives or a reference into the heap. -/
inductive JSVal where
  | undefined
  | jnull
  | num (n : Int)
  | str (s : String)
  | jbool (b : Bool)
  | ref (r : Nat)
deriving DecidableEq, Repr

/-- The `skipParentAutomergeAttrs` option: either `true` (skip all) or an
array of attribute names. -/
inductive SkipAttrs where
  | skipAll
  | skipList (attrs : List String)
deriving DecidableEq, Repr

/-- The options record passed to the wrapper factories (SubclassOptions /
BaseClassExtendsOptions in the source).  An absent field is `none`; mixins
are heap references to the mixin sources. -/
structure SubclassOptions where
  automergeAttrs : Option (List String) := none
  skipParentAutomergeAttrs : Option SkipAttrs := none
  prototypeAttrs : Option (List String) := none
  mixins : Option (List Nat) := none
  name : Option String := none
deriving DecidableEq, Repr

/-- `_.isEmpty` on an options record: no own keys. -/
def SubclassOptions.isEmptyOpts (o : SubclassOptions) : Bool :=
  o.automergeAttrs.isNone && o.skipParentAutomergeAttrs.isNone &&
    o.prototypeAttrs.isNone && o.mixins.isNone && o.name.isNone

/-- Behaviour tag of a function object.  The three merged tags are the
call-time-merging closures allocated by _automergeAttr's function branches. -/
inductive FnTag where
  | plainFn (tag : Nat)
  | mergedFnFn (clsFn parentFn : JSVal)
  | mergedFnObj (clsFn parentObj : JSVal)
  | mergedObjFn (clsObj parentFn : JSVal)
deriving DecidableEq, Repr

/-- Shape of a heap object: plain keyed object, array, function, or an
options record (an ordinary object whose fields we keep structured). -/
inductive ObjKind where
  | plain
  | arr
  | fn (t : FnTag)
  | opts (o : SubclassOptions)
deriving DecidableEq, Repr

/-- A heap object: shape, own properties in insertion order, prototype. -/
structure Obj where
  kind : ObjKind
  props : List (String × JSVal)
  proto : Option Nat
deriving DecidableEq, Repr

/-- Own-property lookup in an insertion-ordered property list. -/
def getA : List (String × JSVal) → String → Option JSVal
  | [], _ => none
  | (k', v) :: rest, k => if k' = k then some v else getA rest k

/-- JavaScript property write on a property list: an existing key keeps its
position and gets the new value; a new key is appended. -/
def setA : List (String × JSVal) → String → JSVal → List (String × JSVal)
  | [], k, v => [(k, v)]
  | (k', v') :: rest, k, v =>
    if k' = k then (k', v) :: rest else (k', v') :: setA rest k v

/-- The heap: a partial map from references to objects plus the next fresh
reference. -/
structure Heap where
  mem : Nat → Option Obj
  next : Nat

/-- The empty heap. -/
def emptyHeap : Heap := ⟨fun _ => none, 0⟩

def Heap.get (h : Heap) (r : Nat) : Option Obj := h.mem r

/-- Allocate a fresh object, returning the new heap and its reference. -/
def Heap.alloc (h : Heap) (o : Obj) : Heap × Nat :=
  (⟨Function.update h.mem h.next (some o), h.next + 1⟩, h.next)

/-- Replace the object stored at a (valid) reference. -/
def Heap.setObj (h : Heap) (r : Nat) (o : Obj) : Heap :=
  ⟨Function.update h.mem r (some o), h.next⟩

/-- `target[k] = v` on the object at `r` (no-op on a dangling reference). -/
def Heap.setProp (h : Heap) (r : Nat) (k : String) (v : JSVal) : Heap :=
  match h.get r with
  | some o => h.setObj r { o with props := setA o.props k v }
  | none => h

/-- Own-property read (`Object.getOwnPropertyDescriptor` flavour). -/
def Heap.getOwn (h : Heap) (r : Nat) (k : String) : Option JSVal :=
  (h.get r).bind fun o => getA o.props k

/-- Own-property read defaulting to `undefined`. -/
def Heap.getOwnD (h : Heap) (r : Nat) (k : String) : JSVal :=
  (h.getOwn r k).getD .undefined

/-- `hasOwnProperty`. -/
def Heap.hasOwn (h : Heap) (r : Nat) (k : String) : Bool :=
  (h.getOwn r k).isSome

/-- Fuelled prototype-chain property lookup. -/
def getPropF (h : Heap) : Nat → Nat → String → JSVal
  | 0, _, _ => .undefined
  | fuel + 1, r, k =>
    match h.get r with
    | none => .undefined
    | some o =>
      match getA o.props k with
      | some v => v
      | none =>
        match o.proto with
        | some p => getPropF h fuel p k
        | none => .undefined

/-- `r[k]`: property read with prototype-chain inheritance.  Prototype
chains in every heap built here only descend through previously allocated
objects, so `h.next + 1` units of fuel always suffice. -/
def Heap.getProp (h : Heap) (r : Nat) (k : String) : JSVal :=
  getPropF h (h.next + 1) r k

/-- Property read through an optional reference (`undefined` when absent). -/
def getPropOpt (h : Heap) : Option Nat → String → JSVal
  | some r, k => h.getProp r k
  | none, _ => .undefined

/-! ### The underscore primitives used by the source -/

/-- `_.isFunction`. -/
def jsIsFunction (h : Heap) : JSVal → Bool
  | .ref r =>
    match h.get r with
    | some o => match o.kind with | .fn _ => true | _ => false
    | none => false
  | _ => false

/-- `_.isEmpty`: null/undefined, numbers and booleans are empty; a string is
empty iff it has no characters; an object or array is empty iff it has no
own (enumerable) keys. -/
def jsIsEmpty (h : Heap) : JSVal → Bool
  | .undefined => true
  | .jnull => true
  | .num _ => true
  | .jbool _ => true
  | .str s => s.isEmpty
  | .ref r =>
    match h.get r with
    | none => true
    | some o =>
      match o.kind with
      | .opts oo => oo.isEmptyOpts
      | _ => o.props.isEmpty

/-- The per-key step of `_.defaults`: assign the source entry onto the
target only where the target's current value is `undefined`. -/
def defaultsAddMissing (h : Heap) (tgt : Nat) (src : List (String × JSVal)) : Heap :=
  src.foldl (fun h' kv =>
    if h'.getOwnD tgt kv.1 = .undefined then h'.setProp tgt kv.1 kv.2 else h') h

/-- `_.defaults(tgt, src)`: mutate `tgt` in place, adding every key of `src`
not already present (the JavaScript value of the call is `tgt` itself;
non-object operands make the call a no-op). -/
def jsDefaults (h : Heap) (tgt src : JSVal) : Heap :=
  match tgt, src with
  | .ref tr, .ref sr =>
    match h.get sr with
    | some so => defaultsAddMissing h tr so.props
    | none => h
  | _, _ => h

/-- Field-wise `_.defaults(a, b, c)` on three options records (first-present
field wins, `a` being mutated in the source and freshly stored here). -/
def optOr2 {α : Type} (a b : Option α) : Option α :=
  match a with
  | some v => some v
  | none => b

def optsDefaults3 (a b c : SubclassOptions) : SubclassOptions :=
  { automergeAttrs := optOr2 a.automergeAttrs (optOr2 b.automergeAttrs c.automergeAttrs)
    skipParentAutomergeAttrs :=
      optOr2 a.skipParentAutomergeAttrs
        (optOr2 b.skipParentAutomergeAttrs c.skipParentAutomergeAttrs)
    prototypeAttrs := optOr2 a.prototypeAttrs (optOr2 b.prototypeAttrs c.prototypeAttrs)
    mixins := optOr2 a.mixins (optOr2 b.mixins c.mixins)
    name := optOr2 a.name (optOr2 b.name c.name) }

/-- Read the structured options record stored in an options object. -/
def optsOf (h : Heap) (r : Nat) : SubclassOptions :=
  match h.get r with
  | some o => match o.kind with | .opts oo => oo | _ => {}
  | none => {}

/-! ### _automergeAttr (src/objects.ts:1106-1221) -/

/-- The candidate-value resolution at the top of _automergeAttr: prefer a
value declared directly on the prototype; else one declared on (or inherited
by) the class; else one inherited via the prototype; else the (undefined)
class read.  The Bool is `onProto`. -/
def automergeResolve (h : Heap) (cls clsProto : Nat) (attr : String) : JSVal × Bool :=
  if h.hasOwn clsProto attr then (h.getProp clsProto attr, true)
  else if h.hasOwn cls attr ∨ h.getProp cls attr ≠ .undefined then
    (h.getProp cls attr, false)
  else if h.getProp clsProto attr ≠ .undefined then (h.getProp clsProto attr, true)
  else (h.getProp cls attr, false)

/-- `_automergeAttr(cls, clsProto, parentProto, attr)`: auto-merge one
attribute between a parent class and subclass, returning the updated heap
and the merged flag.  All branches other than the two early `false` returns
fall through to the write-back of `newValue` onto the class (and, when the
candidate came from the prototype, onto the prototype as well), exactly as
in the source. -/
def _automergeAttr (h : Heap) (cls clsProto : Nat) (parentProto : Option Nat)
    (attr : String) : Heap × Bool :=
  let res := automergeResolve h cls clsProto attr
  let clsValue := res.1
  let onProto := res.2
  let parentValue := getPropOpt h parentProto attr
  if clsValue = parentValue then (h, false)
  else
    let isClsValueFunction := jsIsFunction h clsValue
    let isParentValueFunction := jsIsFunction h parentValue
    let clsValueIsEmpty := !isClsValueFunction && jsIsEmpty h clsValue
    let parentValueIsEmpty := !isParentValueFunction && jsIsEmpty h parentValue
    let write := fun (h' : Heap) (newValue : JSVal) (merged : Bool) =>
      let h'' := h'.setProp cls attr newValue
      (if onProto then h''.setProp clsProto attr newValue else h'', merged)
    if parentValueIsEmpty then
      write h clsValue false
    else if clsValueIsEmpty then
      write h parentValue true
    else if !isClsValueFunction && !isParentValueFunction then
      write (jsDefaults h clsValue parentValue) clsValue true
    else if isClsValueFunction && isParentValueFunction then
      let ar := h.alloc ⟨.fn (.mergedFnFn clsValue parentValue), [], none⟩
      write ar.1 (.ref ar.2) true
    else if isClsValueFunction then
      let ar := h.alloc ⟨.fn (.mergedFnObj clsValue parentValue), [], none⟩
      write ar.1 (.ref ar.2) true
    else if isParentValueFunction then
      let ar := h.alloc ⟨.fn (.mergedObjFn clsValue parentValue), [], none⟩
      write ar.1 (.ref ar.2) true
    else
      (h, false)

/-! ### _copyPrototypeAttr (src/objects.ts:1244-1256) -/

/-- Copy a static attribute to the class prototype when the prototype does
not already own it and the class itself does. -/
def _copyPrototypeAttr (h : Heap) (cls clsProto : Nat) (attr : String) : Heap × Bool :=
  if !h.hasOwn clsProto attr && h.hasOwn cls attr then
    (h.setProp clsProto attr (h.getOwnD cls attr), true)
  else
    (h, false)

/-! ### applyMixins (src/objects.ts:1924-1953) -/

/-- Copy every own property except `prototype` of a source property list
onto the target object, in order (later writes overwrite earlier ones). -/
def copyOwnPropsExceptPrototype (h : Heap) (tgt : Nat)
    (src : List (String × JSVal)) : Heap :=
  src.foldl (fun h' kv =>
    if kv.1 = "prototype" then h' else h'.setProp tgt kv.1 kv.2) h

/-- The per-mixin body of the applyMixins loop: resolve the mixin body
(`mixin['prototype'] || mixin`), copy its own members onto the target
prototype, and for class-shaped mixins (body distinct from the mixin) copy
the mixin's own static members onto the target class itself. -/
def applyOneMixin (h : Heap) (target targetProto mixin : Nat) : Heap :=
  let bodyRef :=
    match h.getProp mixin "prototype" with
    | .ref b => b
    | _ => mixin
  let bodyProps :=
    match h.get bodyRef with
    | some o => o.props
    | none => []
  let h' := copyOwnPropsExceptPrototype h targetProto bodyProps
  if bodyRef ≠ mixin then
    let mProps := match h'.get mixin with | some o => o.props | none => []
    copyOwnPropsExceptPrototype h' target mProps
  else
    h'

/-- `applyMixins(target, mixins)`.  The target prototype is resolved once,
before the loop, as in the source. -/
def applyMixins (h : Heap) (target : Nat) (mixins : List Nat) : Heap :=
  match h.getProp target "prototype" with
  | .ref targetProto => mixins.foldl (fun h' m => applyOneMixin h' target targetProto m) h
  | _ => h

/-! ### _prepareSubclass (src/objects.ts:1280-1451) -/

/-- `_prepareSubclass(cls, options)`: apply mixins, copy prototype attrs,
auto-merge attributes, and store the resulting configuration record as
`cls.__spinaOptions` — sharing the parent's record by reference when the
class contributes no options of its own, and sharing the passed options
object itself when the parent has none.  `optionsRef` is the heap object
holding `options` (the literal the caller passed).

Note the recorded automergeAttrs list: the source guards it with
`if (skipped || (seenParentAttrs.length > 0 && seenClassAttrs.length > 0))`,
and `skipped` is an object literal, hence always truthy, so the list is
recorded whenever the auto-merge block runs at all; a skipped attribute is
never pushed onto seenParentAttrs (the push sits inside the
`if (!skipped[attr])` branch). -/
def _prepareSubclass (h0 : Heap) (cls optionsRef : Nat) : Heap :=
  let options := optsOf h0 optionsRef
  let parentProtoRef : Option Nat := (h0.get cls).bind Obj.proto
  let parentOptionsInfo :=
    match parentProtoRef with
    | some p =>
      match h0.getProp p "__spinaOptions" with
      | .ref r => (optsOf h0 r, some r)
      | _ => (({} : SubclassOptions), (none : Option Nat))
    | none => ({}, none)
  let parentOptions := parentOptionsInfo.1
  let parentOptionsRef := parentOptionsInfo.2
  let clsProto : Nat :=
    match h0.getProp cls "prototype" with
    | .ref r => r
    | _ => cls
  let h1 :=
    match options.mixins with
    | some ms => applyMixins h0 cls ms
    | none => h0
  let protoStep :=
    if options.prototypeAttrs.isSome || parentOptions.prototypeAttrs.isSome then
      let parentRes :=
        match parentOptions.prototypeAttrs with
        | some attrs =>
          attrs.foldl (fun (acc : Heap × List String × List String) attr =>
            let cp := _copyPrototypeAttr acc.1 cls clsProto attr
            (cp.1, (if cp.2 then attr :: acc.2.1 else acc.2.1, acc.2.2 ++ [attr])))
            (h1, (([] : List String), ([] : List String)))
        | none => (h1, ([], []))
      let h2 := parentRes.1
      let seen := parentRes.2.1
      let seenParentAttrs := parentRes.2.2
      match options.prototypeAttrs with
      | some attrs =>
        let clsRes :=
          attrs.foldl (fun (acc : Heap × List String) attr =>
            if attr ∈ seen then acc
            else
              let cp := _copyPrototypeAttr acc.1 cls clsProto attr
              (cp.1, acc.2 ++ [attr])) (h2, ([] : List String))
        if seenParentAttrs.length > 0 ∧ clsRes.2.length > 0 then
          (clsRes.1, some (seenParentAttrs ++ clsRes.2))
        else
          (clsRes.1, none)
      | none => (h2, none)
    else
      (h1, none)
  let h3 := protoStep.1
  let mergeProtoAttrs := protoStep.2
  let autoStep :=
    if options.automergeAttrs.isSome || parentOptions.automergeAttrs.isSome then
      let skipAll := options.skipParentAutomergeAttrs = some .skipAll
      let skipped : List String :=
        match options.skipParentAutomergeAttrs with
        | some (.skipList attrs) => attrs
        | _ => []
      let parentRes :=
        if !skipAll then
          match parentOptions.automergeAttrs with
          | some attrs =>
            attrs.foldl (fun (acc : Heap × List String × List String) attr =>
              if attr ∈ skipped then acc
              else
                let am := _automergeAttr acc.1 cls clsProto parentProtoRef attr
                (am.1, (if am.2 then attr :: acc.2.1 else acc.2.1, acc.2.2 ++ [attr])))
              (h3, (([] : List String), ([] : List String)))
          | none => (h3, ([], []))
        else
          (h3, ([], []))
      let h4 := parentRes.1
      let seen := parentRes.2.1
      let seenParentAttrs := parentRes.2.2
      let clsRes :=
        match options.automergeAttrs with
        | some attrs =>
          attrs.foldl (fun (acc : Heap × List String) attr =>
            if attr ∈ seen then acc
            else
              let am := _automergeAttr acc.1 cls clsProto parentProtoRef attr
              (am.1, acc.2 ++ [attr])) (h4, ([] : List String))
        | none => (h4, [])
      (clsRes.1, some (seenParentAttrs ++ clsRes.2))
    else
      (h3, none)
  let h5 := autoStep.1
  let mergeAutoAttrs := autoStep.2
  let mergeOptions : SubclassOptions :=
    { automergeAttrs := mergeAutoAttrs, prototypeAttrs := mergeProtoAttrs }
  let hasOptions := !options.isEmptyOpts
  let hasParentOptions := !parentOptions.isEmptyOpts
  if hasOptions && hasParentOptions then
    let so := optsDefaults3 mergeOptions options parentOptions
    let so :=
      if so.automergeAttrs = some [] then { so with automergeAttrs := none } else so
    let ar := h5.alloc ⟨.opts so, [], none⟩
    ar.1.setProp cls "__spinaOptions" (.ref ar.2)
  else if hasParentOptions then
    match parentOptionsRef with
    | some r => h5.setProp cls "__spinaOptions" (.ref r)
    | none => h5.setProp cls "__spinaOptions" .undefined
  else
    h5.setProp cls "__spinaOptions" (.ref optionsRef)

/-! ### The wrapper factories (heap side)

The construction-time behaviour of the produced classes is the
construction-chain model above; here the factories' class-preparation
effects are modelled: minting the classID from the module counter
(_spinaClassCount, threaded explicitly since only these two factories touch
it), resolving the display name, allocating the wrapper prototype and class
objects with their static members (`prototype`, `name`, the static
`__spinaObjectID`; the base wrapper prototype additionally carries the
initObject method), and running _prepareSubclass.  The static `extend`
helper is not modelled (no claim concerns it). -/

/-- `spinaBaseClassExtends(BaseClass, options)` (src/objects.ts:1517-1680),
class-preparation side.  Returns (heap, wrapper class ref, new counter). -/
def spinaBaseClassExtends (h0 : Heap) (cnt : Nat) (baseCls : Nat)
    (options : SubclassOptions) : Heap × Nat × Nat :=
  let classID := cnt + 1
  let nameAuto := "_SpinaBaseClass" ++ toString classID
  let name :=
    match options.name with
    | some n => n
    | none =>
      match h0.getProp baseCls "name" with
      | .str s => if s.isEmpty then nameAuto else s
      | _ => nameAuto
  let baseProto : Option Nat :=
    match h0.getProp baseCls "prototype" with
    | .ref r => some r
    | _ => none
  let a1 := h0.alloc ⟨.fn (.plainFn classID), [], none⟩
  let a2 := a1.1.alloc ⟨.plain, [("initObject", .ref a1.2)], baseProto⟩
  let a3 := a2.1.alloc ⟨.plain,
    [("prototype", .ref a2.2), ("name", .str name),
      ("__spinaObjectID", .num classID)], some baseCls⟩
  let a4 := a3.1.alloc ⟨.opts options, [], none⟩
  (_prepareSubclass a4.1 a3.2 a4.2, a3.2, classID)

/-- `_makeSpinaSubclass(BaseClass, options)` (src/objects.ts:1721-1817),
class-preparation side: the options object is allocated (the caller's
literal), _prepareSubclass runs against the wrapped user class, then the
wrapper class and its prototype are created around it.  Returns
(heap, wrapper class ref, new counter). -/
def _makeSpinaSubclass (h0 : Heap) (cnt : Nat) (baseCls : Nat)
    (options : SubclassOptions) : Heap × Nat × Nat :=
  let classID := cnt + 1
  let name :=
    match options.name with
    | some n => n
    | none =>
      let clsName :=
        if h0.hasOwn baseCls "name" then
          match h0.getOwn baseCls "name" with
          | some (.str s) => s
          | _ => ""
        else ""
      let clsName :=
        if clsName.isEmpty then "SpinaSubclass" ++ toString classID else clsName
      "_" ++ clsName ++ "_"
  let a0 := h0.alloc ⟨.opts options, [], none⟩
  let h2 := _prepareSubclass a0.1 baseCls a0.2
  let parentProtoOfUser : Option Nat :=
    match h2.getProp baseCls "prototype" with
    | .ref r => some r
    | _ => none
  let a1 := h2.alloc ⟨.plain, [], parentProtoOfUser⟩
  let a2 := a1.1.alloc ⟨.plain,
    [("prototype", .ref a1.2), ("name", .str name),
      ("__spinaObjectID", .num classID)], some baseCls⟩
  (a2.1, a2.2, classID)

/-- A user-authored `class Name extends Parent { static ... }` body: a fresh
prototype (chained to the parent class's prototype) and a class object
owning `prototype`, `name` and the declared statics, statically inheriting
from the parent class. -/
def defineUserClass (h0 : Heap) (parentCls : Nat) (name : String)
    (statics : List (String × JSVal)) (protoProps : List (String × JSVal)) :
    Heap × Nat :=
  let parentProto : Option Nat :=
    match h0.getProp parentCls "prototype" with
    | .ref r => some r
    | _ => none
  let a1 := h0.alloc ⟨.plain, protoProps, parentProto⟩
  let a2 := a1.1.alloc ⟨.plain,
    [("prototype", .ref a1.2), ("name", .str name)] ++ statics, some parentCls⟩
  (a2.1, a2.2)

/-! ### Convenience readers used in claim statements -/

/-- The own-property list of the object an attribute resolves to. -/
def resolvedProps (h : Heap) (cls : Nat) (attr : String) :
    Option (List (String × JSVal)) :=
  match h.getProp cls attr with
  | .ref r => (h.get r).map Obj.props
  | _ => none

/-- Reference equality of two property reads (false unless both are
references to the same object). -/
def sameRef : JSVal → JSVal → Bool
  | .ref a, .ref b => a = b
  | _, _ => false

/-- The `prototype` of a class, as a reference (0 if absent). -/
def protoRefOf (h : Heap) (cls : Nat) : Nat :=
  match h.getProp cls "prototype" with
  | .ref r => r
  | _ => 0

/-- The automergeAttrs list of a class's stored configuration record. -/
def recordAutomergeAttrs (h : Heap) (cls : Nat) : Option (List String) :=
  match h.getProp cls "__spinaOptions" with
  | .ref r => (optsOf h r).automergeAttrs
  | _ => none

/-- The skipParentAutomergeAttrs field of a class's stored record. -/
def recordSkipAttrs (h : Heap) (cls : Nat) : Option SkipAttrs :=
  match h.getProp cls "__spinaOptions" with
  | .ref r => (optsOf h r).skipParentAutomergeAttrs
  | _ => none

/-! ## Concrete scenario: the end-to-end chain R → B → C → D (spec §8) -/

/-- The heap and class references of the end-to-end scenario: legacy root
class R with static h = \x7bk1:'v1', k2:'v2'\x7d, base-wrapped into B with no
options; user class C (own static h = \x7ba:1, b:2\x7d) wrapped with
automergeAttrs ['h'] into wC; user class D (own static h = \x7bc:3, d:4\x7d)
wrapped with no options into wD. -/
structure EndToEndChain where
  heap : Heap
  cnt : Nat
  rCls : Nat
  wB : Nat
  uC : Nat
  wC : Nat
  uD : Nat
  wD : Nat

def endToEndChain : EndToEndChain :=
  let a0 := emptyHeap.alloc ⟨.plain, [], none⟩
  let a1 := a0.1.alloc ⟨.plain, [("k1", .str "v1"), ("k2", .str "v2")], none⟩
  let a2 := a1.1.alloc ⟨.plain,
    [("prototype", .ref a0.2), ("name", .str "R"), ("h", .ref a1.2)], none⟩
  let b := spinaBaseClassExtends a2.1 0 a2.2 {}
  let a3 := b.1.alloc ⟨.plain, [("a", .num 1), ("b", .num 2)], none⟩
  let u1 := defineUserClass a3.1 b.2.1 "C" [("h", .ref a3.2)] []
  let c := _makeSpinaSubclass u1.1 b.2.2 u1.2 { automergeAttrs := some ["h"] }
  let a4 := c.1.alloc ⟨.plain, [("c", .num 3), ("d", .num 4)], none⟩
  let u2 := defineUserClass a4.1 c.2.1 "D" [("h", .ref a4.2)] []
  let d := _makeSpinaSubclass u2.1 c.2.2 u2.2 {}
  ⟨d.1, d.2.2, a2.2, b.2.1, u1.2, c.2.1, u2.2, d.2.1⟩

/-- C1: in the chain R (static h with keys k1, k2) → base wrapper B →
subclass C (options automergeAttrs ['h'], own h with keys a, b) → subclass D
(no options, own h with keys c, d): C's resolved h holds exactly the
key-union of its own and the ancestor entries, D's resolved h holds all six
entries with the keys declared at a more-derived level keeping their own
(more-derived) values, and D's stored configuration record (__spinaOptions)
is the same heap object, by reference, as C's. -/
theorem endToEnd_automerge_and_config_identity :
    resolvedProps endToEndChain.heap endToEndChain.wC "h" =
      some [("a", .num 1), ("b", .num 2), ("k1", .str "v1"), ("k2", .str "v2")]
    ∧ resolvedProps endToEndChain.heap endToEndChain.wD "h" =
      some [("c", .num 3), ("d", .num 4), ("a", .num 1), ("b", .num 2),
        ("k1", .str "v1"), ("k2", .str "v2")]
    ∧ sameRef (endToEndChain.heap.getProp endToEndChain.wD "__spinaOptions")
        (endToEndChain.heap.getProp endToEndChain.wC "__spinaOptions") = true
    ∧ (∃ r, endToEndChain.heap.getProp endToEndChain.wC "__spinaOptions" = .ref r) := by
  refine ⟨by decide, by decide, by decide, 10, by decide⟩

/-- C9 (counterexample): the identity token is not "stored redundantly on
both the class and its instance-facing surface": the wrapper class carries
the static token, but its prototype — the instance-facing surface — does
not, even through prototype-chain inheritance (the repository's own test
asserts proto['__spinaObjectID'] is undefined). -/
theorem token_not_on_prototype :
    endToEndChain.heap.getOwn endToEndChain.wC "__spinaObjectID" = some (.num 2)
    ∧ endToEndChain.heap.getProp
        (protoRefOf endToEndChain.heap endToEndChain.wC) "__spinaObjectID" = .undefined := by
  refine ⟨by decide, by decide⟩

/-! ## Concrete scenario: skipParentAutomergeAttrs (spec §4.3, §8) -/

/-- Root R3 with static h (keys k1, k2) and h2 (keys o1, o2), base-wrapped;
user class C (own h = keys a, b) wrapped with automergeAttrs ['h', 'h2'];
user class S (own h = keys c, d; own h2 = key s1) wrapped with
skipParentAutomergeAttrs ['h']. -/
structure SkipDemo where
  heap : Heap
  wC : Nat
  uS : Nat
  wS : Nat

def skipChain : SkipDemo :=
  let a0 := emptyHeap.alloc ⟨.plain, [], none⟩
  let ah := a0.1.alloc ⟨.plain, [("k1", .str "v1"), ("k2", .str "v2")], none⟩
  let ah2 := ah.1.alloc ⟨.plain, [("o1", .num 1), ("o2", .num 2)], none⟩
  let ar := ah2.1.alloc ⟨.plain,
    [("prototype", .ref a0.2), ("name", .str "R3"),
      ("h", .ref ah.2), ("h2", .ref ah2.2)], none⟩
  let b := spinaBaseClassExtends ar.1 0 ar.2 {}
  let ua := b.1.alloc ⟨.plain, [("a", .num 1), ("b", .num 2)], none⟩
  let u1 := defineUserClass ua.1 b.2.1 "C" [("h", .ref ua.2)] []
  let s1 := _makeSpinaSubclass u1.1 b.2.2 u1.2 { automergeAttrs := some ["h", "h2"] }
  let uc := s1.1.alloc ⟨.plain, [("c", .num 3), ("d", .num 4)], none⟩
  let us2 := uc.1.alloc ⟨.plain, [("s1", .num 9)], none⟩
  let u2 := defineUserClass us2.1 s1.2.1 "S"
    [("h", .ref uc.2), ("h2", .ref us2.2)] []
  let s2 := _makeSpinaSubclass u2.1 s1.2.2 u2.2
    { skipParentAutomergeAttrs := some (.skipList ["h"]) }
  ⟨s2.1, s1.2.1, u2.2, s2.2.1⟩

/-- C5 (counterexample): the claim says the skipped name is still recorded
among the "seen parent attrs" and hence stays present in the configuration
record propagated to descendants.  It is not: the push onto seenParentAttrs
sits inside the not-skipped branch, so the subclass's stored record carries
automergeAttrs = ['h2'] only — the skipped 'h' is dropped (exactly what the
repository's own test expects). -/
theorem skipped_attr_dropped_from_record :
    recordAutomergeAttrs skipChain.heap skipChain.wS = some ["h2"]
    ∧ ¬ ("h" ∈ (["h2"] : List String)) := by
  refine ⟨by decide, by decide⟩

/-- C5 (amended): with skipParentAutomergeAttrs ['h'] while 'h' is in the
parent's inherited automergeAttrs ['h', 'h2'], the subclass's resolved 'h'
equals only its own declared value (no ancestor keys merged in), every other
name in the parent's list still merges normally ('h2' gains the ancestor
keys), and the skip list itself is recorded in the propagated record — but
the skipped name is omitted from the seen-parent-attrs, so the propagated
automergeAttrs list drops it ('h2' only): a descendant clearing the skip
will not resume auto-merging 'h' unless it re-lists the name. -/
theorem skip_automerge_behavior :
    resolvedProps skipChain.heap skipChain.wS "h" =
      some [("c", .num 3), ("d", .num 4)]
    ∧ resolvedProps skipChain.heap skipChain.wS "h2" =
      some [("s1", .num 9), ("o1", .num 1), ("o2", .num 2)]
    ∧ recordAutomergeAttrs skipChain.heap skipChain.wS = some ["h2"]
    ∧ recordSkipAttrs skipChain.heap skipChain.wS = some (.skipList ["h"])
    ∧ recordAutomergeAttrs skipChain.heap skipChain.wC = some ["h", "h2"] := by
  refine ⟨by decide, by decide, by decide, by decide, by decide⟩

/-! ## Concrete scenario: prototypeAttrs accumulation over three levels -/

/-- A three-level wrapped chain over a plain base wrapper: level 1 declares
static p1 and lists it in prototypeAttrs; level 2 declares p2 and lists it;
level 3 declares p3 (listed) and additionally re-declares p2 with its own
value v2b, p2 being inherited through the propagated prototypeAttrs list.
The static values are arbitrary. -/
structure ProtoChainDemo where
  heap : Heap
  w3 : Nat

def protoAttrsChain (v1 v2 v2b v3 : JSVal) : ProtoChainDemo :=
  let a0 := emptyHeap.alloc ⟨.plain, [], none⟩
  let a1 := a0.1.alloc ⟨.plain, [("prototype", .ref a0.2), ("name", .str "R2")], none⟩
  let b := spinaBaseClassExtends a1.1 0 a1.2 {}
  let u1 := defineUserClass b.1 b.2.1 "L1" [("p1", v1)] []
  let s1 := _makeSpinaSubclass u1.1 b.2.2 u1.2 { prototypeAttrs := some ["p1"] }
  let u2 := defineUserClass s1.1 s1.2.1 "L2" [("p2", v2)] []
  let s2 := _makeSpinaSubclass u2.1 s1.2.2 u2.2 { prototypeAttrs := some ["p2"] }
  let u3 := defineUserClass s2.1 s2.2.1 "L3" [("p3", v3), ("p2", v2b)] []
  let s3 := _makeSpinaSubclass u3.1 s2.2.2 u3.2 { prototypeAttrs := some ["p3"] }
  ⟨s3.1, s3.2.1⟩

/-- C7: in a three-level wrapped chain where each level's options add one
distinct name to prototypeAttrs (each level declaring that name as a static
attribute: p1 = 11 at level 1, p2 = 22 at level 2, p3 = 44 at level 3), the
most-derived class's instance-facing surface — its prototype, inherited
entries included — exposes all three names with the declared values; and
when more than one level declares a static value for the same listed name
(p2 is re-declared at level 3 with 33), the value observed at the
most-derived level is the most-derived declared one (33, not 22). -/
theorem prototypeAttrs_three_level_accumulation :
    (protoAttrsChain (.num 11) (.num 22) (.num 33) (.num 44)).heap.getProp
        (protoRefOf (protoAttrsChain (.num 11) (.num 22) (.num 33) (.num 44)).heap
          (protoAttrsChain (.num 11) (.num 22) (.num 33) (.num 44)).w3) "p1" = .num 11
    ∧ (protoAttrsChain (.num 11) (.num 22) (.num 33) (.num 44)).heap.getProp
        (protoRefOf (protoAttrsChain (.num 11) (.num 22) (.num 33) (.num 44)).heap
          (protoAttrsChain (.num 11) (.num 22) (.num 33) (.num 44)).w3) "p2" = .num 33
    ∧ (protoAttrsChain (.num 11) (.num 22) (.num 33) (.num 44)).heap.getProp
        (protoRefOf (protoAttrsChain (.num 11) (.num 22) (.num 33) (.num 44)).heap
          (protoAttrsChain (.num 11) (.num 22) (.num 33) (.num 44)).w3) "p3" = .num 44 := by
  refine ⟨by decide, by decide, by decide⟩

/-! ## The "other shape" merge branch (claim C6) -/

/-- A minimal heap for a direct _automergeAttr call where both the subclass
candidate and the parent value are non-empty arrays: ref 0 is the class's
own array value [1], ref 1 the parent's array value [5, 6], ref 2 the class
prototype (empty), ref 3 the parent class owning the attribute, ref 4 the
subclass owning the attribute. -/
def arrayMergeHeap : Heap :=
  let a0 := emptyHeap.alloc ⟨.arr, [("0", .num 1)], none⟩
  let a1 := a0.1.alloc ⟨.arr, [("0", .num 5), ("1", .num 6)], none⟩
  let a2 := a1.1.alloc ⟨.plain, [], none⟩
  let a3 := a2.1.alloc ⟨.plain, [("myAttr", .ref a1.2)], none⟩
  let a4 := a3.1.alloc ⟨.plain, [("prototype", .ref a2.2), ("myAttr", .ref a0.2)], none⟩
  a4.1

/-- C6 (counterexample): the claim says that when both values are non-empty
but outside the listed mergeable shapes (for example two non-empty arrays)
the attribute merge performs no merge and returns false, leaving the class's
value unchanged.  On the code the final no-merge branch is dead: two
distinct non-empty arrays satisfy the not-function/not-function test and
take the defaults-union branch, so the call returns true and mutates the
class's array in place (index "1" adopts the parent's entry). -/
theorem array_merge_returns_true :
    (_automergeAttr arrayMergeHeap 4 2 (some 3) "myAttr").2 = true
    ∧ ((_automergeAttr arrayMergeHeap 4 2 (some 3) "myAttr").1.get 0).map Obj.props
        = some [("0", .num 1), ("1", .num 6)] := by
  refine ⟨by decide, by decide⟩

/-- C6 (amended): whenever the resolved class candidate and the parent value
are distinct, both non-empty and both non-callable — regardless of shape, so
in particular for two non-empty arrays — _automergeAttr takes the eager
defaults-union branch: it mutates the class value in place via _.defaults,
writes it back onto the class, and returns true.  The source's final
"no merge, false" branch is unreachable for such values (its guard set is
exhausted by the preceding branches). -/
theorem nonfunction_nonempty_merge_defaults
    (h : Heap) (cls clsProto pp : Nat) (attr : String) (cv pv : JSVal)
    (h1 : h.hasOwn clsProto attr = false)
    (h2 : h.hasOwn cls attr = true)
    (hcv : h.getProp cls attr = cv)
    (hpv : h.getProp pp attr = pv)
    (hne : cv ≠ pv)
    (hcf : jsIsFunction h cv = false)
    (hpf : jsIsFunction h pv = false)
    (hce : jsIsEmpty h cv = false)
    (hpe : jsIsEmpty h pv = false) :
    _automergeAttr h cls clsProto (some pp) attr =
      ((jsDefaults h cv pv).setProp cls attr cv, true) := by
  have hres : automergeResolve h cls clsProto attr = (cv, false) := by
    simp [automergeResolve, h1, h2, hcv]
  simp [_automergeAttr, hres, getPropOpt, hpv, hne, hcf, hpf, hce, hpe]

theorem nonfunction_nonempty_merge_defaults_witness :
    _automergeAttr arrayMergeHeap 4 2 (some 3) "myAttr" =
      ((jsDefaults arrayMergeHeap (.ref 0) (.ref 1)).setProp 4 "myAttr" (.ref 0),
        true) :=
  nonfunction_nonempty_merge_defaults arrayMergeHeap 4 2 3 "myAttr"
    (.ref 0) (.ref 1) (by decide) (by decide) (by decide) (by decide)
    (by decide) (by decide) (by decide) (by decide) (by decide)

/-! ## Identity-token minting (claim C9) -/

/-- One invocation of either wrapper factory. -/
inductive WrapOp where
  | wbase (baseCls : Nat) (options : SubclassOptions)
  | wsub (cls : Nat) (options : SubclassOptions)

def runWrapOp (h : Heap) (cnt : Nat) : WrapOp → Heap × Nat × Nat
  | .wbase b o => spinaBaseClassExtends h cnt b o
  | .wsub c o => _makeSpinaSubclass h cnt c o

/-- The identity tokens minted by a sequence of factory invocations, each
threading the module counter _spinaClassCount. -/
def mintedTokens : Heap → Nat → List WrapOp → List Nat
  | _, _, [] => []
  | h, cnt, op :: rest =>
    let r := runWrapOp h cnt op
    r.2.2 :: mintedTokens r.1 r.2.2 rest

theorem runWrapOp_token (h : Heap) (cnt : Nat) (op : WrapOp) :
    (runWrapOp h cnt op).2.2 = cnt + 1 := by
  cases op <;> rfl

theorem mintedTokens_eq_range' (ops : List WrapOp) :
    ∀ (h : Heap) (cnt : Nat), mintedTokens h cnt ops = List.range' (cnt + 1) ops.length := by
  induction ops with
  | nil => intro h cnt; rfl
  | cons op rest ih =>
    intro h cnt
    have ht := runWrapOp_token h cnt op
    calc mintedTokens h cnt (op :: rest)
        = (runWrapOp h cnt op).2.2
            :: mintedTokens (runWrapOp h cnt op).1 (runWrapOp h cnt op).2.2 rest := rfl
      _ = (cnt + 1) :: mintedTokens (runWrapOp h cnt op).1 (cnt + 1) rest := by rw [ht]
      _ = (cnt + 1) :: List.range' (cnt + 1 + 1) rest.length := by
          rw [ih (runWrapOp h cnt op).1 (cnt + 1)]
      _ = List.range' (cnt + 1) (rest.length + 1) := by
          rw [List.range'_succ (cnt + 1) rest.length 1]
      _ = List.range' (cnt + 1) (op :: rest).length := rfl

/-- C9 (amended): every factory invocation mints a fresh token — the
just-incremented module counter — so across any sequence of invocations the
tokens are the consecutive integers above the starting counter, strictly
increasing and pairwise distinct, never reused.  The token is stored as a
static own property of the wrapper class and set as an instance field on
every object constructed from a wrapper (the most-derived wrapper's token
remaining after the chain unwinds); the wrapper's prototype — the
instance-facing surface — does not carry it. -/
theorem token_minting_monotonic :
    (∀ (h : Heap) (cnt : Nat) (ops : List WrapOp),
        mintedTokens h cnt ops = List.range' (cnt + 1) ops.length
        ∧ (mintedTokens h cnt ops).Pairwise (· < ·))
    ∧ (endToEndChain.heap.getOwn endToEndChain.wB "__spinaObjectID" = some (.num 1)
        ∧ endToEndChain.heap.getOwn endToEndChain.wC "__spinaObjectID" = some (.num 2)
        ∧ endToEndChain.heap.getOwn endToEndChain.wD "__spinaObjectID" = some (.num 3)
        ∧ endToEndChain.heap.getProp
            (protoRefOf endToEndChain.heap endToEndChain.wD) "__spinaObjectID" = .undefined)
    ∧ (∀ (cid : Nat) (nm : String) (p : SpinaChain) (args : List JArg),
        args.head? ≠ some JArg.sentinel →
        construct (.sub cid nm p) args = .ok ⟨.sub cid nm p, [args], some cid⟩) := by
  refine ⟨?_, ⟨by decide, by decide, by decide, by decide⟩, ?_⟩
  · intro h cnt ops
    refine ⟨mintedTokens_eq_range' ops h cnt, ?_⟩
    rw [mintedTokens_eq_range' ops h cnt]
    exact List.pairwise_lt_range' (cnt + 1) ops.length
  · intro cid nm p args hargs
    exact construct_sub_ok cid nm p args hargs

theorem token_minting_monotonic_witness :
    construct (.sub 5 "_W_" (.base 4 "B4")) [JArg.v 0] =
      .ok ⟨.sub 5 "_W_" (.base 4 "B4"), [[JArg.v 0]], some 5⟩ :=
  token_minting_monotonic.2.2 5 "_W_" (.base 4 "B4") [JArg.v 0] (by decide)

/-! ## Heap lemmas -/

theorem getA_setA_self (l : List (String × JSVal)) (k : String) (v : JSVal) :
    getA (setA l k v) k = some v := by
  induction l with
  | nil => simp [setA, getA]
  | cons kv rest ih =>
    by_cases hk : kv.1 = k
    · simp [setA, getA, hk]
    · simp [setA, getA, hk, ih]

theorem getA_setA_ne (l : List (String × JSVal)) (k k' : String) (v : JSVal)
    (h : k' ≠ k) : getA (setA l k v) k' = getA l k' := by
  induction l with
  | nil => simp [setA, getA, Ne.symm h]
  | cons kv rest ih =>
    by_cases hk : kv.1 = k
    · simp [setA, getA, hk, Ne.symm h]
    · simp [setA, getA, hk, ih]

theorem setA_eq_append (l : List (String × JSVal)) (k : String) (v : JSVal)
    (h : getA l k = none) : setA l k v = l ++ [(k, v)] := by
  induction l with
  | nil => simp [setA]
  | cons kv rest ih =>
    by_cases hk : kv.1 = k
    · simp [getA, hk] at h
    · simp [getA, hk] at h
      simp [setA, hk, ih h]

theorem getA_append (l l' : List (String × JSVal)) (k : String) :
    getA (l ++ l') k =
      match getA l k with
      | some v => some v
      | none => getA l' k := by
  induction l with
  | nil => simp [getA]
  | cons kv rest ih =>
    by_cases hk : kv.1 = k
    · simp [getA, hk]
    · simp [getA, hk, ih]

theorem filter_congr_mem {α : Type} (l : List α) (p q : α → Bool)
    (h : ∀ x ∈ l, p x = q x) : l.filter p = l.filter q := by
  induction l with
  | nil => rfl
  | cons a rest ih =>
    have ha := h a (List.mem_cons_self a rest)
    have hr := ih fun x hx => h x (List.mem_cons_of_mem a hx)
    simp [List.filter, ha, hr]

theorem Heap.get_setProp_ne (h : Heap) (r x : Nat) (k : String) (v : JSVal)
    (hx : x ≠ r) : (h.setProp r k v).get x = h.get x := by
  unfold Heap.setProp
  cases hr : h.get r with
  | none => rfl
  | some o => simp [Heap.setObj, Heap.get, Function.update_noteq hx]

theorem Heap.get_setProp_eq (h : Heap) (r : Nat) (k : String) (v : JSVal)
    (o : Obj) (hr : h.get r = some o) :
    (h.setProp r k v).get r = some { o with props := setA o.props k v } := by
  unfold Heap.setProp
  rw [hr]
  simp [Heap.setObj, Heap.get, Function.update_same]

theorem Heap.getOwn_setProp_eq (h : Heap) (r : Nat) (k : String) (v : JSVal)
    (ho : (h.get r).isSome) : (h.setProp r k v).getOwn r k = some v := by
  match hr : h.get r with
  | none => rw [hr] at ho; simp at ho
  | some o =>
    rw [Heap.getOwn, Heap.get_setProp_eq h r k v o hr]
    simp [getA_setA_self]

theorem Heap.getOwn_setProp_ne_key (h : Heap) (r : Nat) (k k' : String) (v : JSVal)
    (hk : k' ≠ k) : (h.setProp r k v).getOwn r k' = h.getOwn r k' := by
  match hr : h.get r with
  | none =>
    unfold Heap.setProp
    rw [hr]
  | some o =>
    rw [Heap.getOwn, Heap.get_setProp_eq h r k v o hr, Heap.getOwn, hr]
    simp [getA_setA_ne _ _ _ _ hk]

theorem Heap.isSome_setProp (h : Heap) (r : Nat) (k : String) (v : JSVal)
    (ho : (h.get r).isSome) : ((h.setProp r k v).get r).isSome := by
  match hr : h.get r with
  | none => rw [hr] at ho; simp at ho
  | some o => rw [Heap.get_setProp_eq h r k v o hr]; rfl

theorem Heap.getProp_own (h : Heap) (r : Nat) (k : String) (o : Obj) (v : JSVal)
    (hr : h.get r = some o) (hv : getA o.props k = some v) :
    h.getProp r k = v := by
  simp [Heap.getProp, getPropF, hr, hv]

theorem Heap.getProp_undef_isolated (h : Heap) (r : Nat) (k : String) (o : Obj)
    (hr : h.get r = some o) (hk : getA o.props k = none) (hp : o.proto = none) :
    h.getProp r k = .undefined := by
  simp [Heap.getProp, getPropF, hr, hk, hp]

/-! ## applyMixins: last-writer-wins (claim C8) -/

/-- The value bound to a key by the latest entry of a property list that
binds it (later entries shadow earlier ones under sequential assignment). -/
def lastVal : List (String × JSVal) → String → Option JSVal
  | [], _ => none
  | kv :: rest, k =>
    match lastVal rest k with
    | some v => some v
    | none => if kv.1 = k then some kv.2 else none

/-- The value the latest-listed mixin that defines a member name gives it
(mixins later in the list take precedence). -/
def lastMixinVal (h : Heap) : List Nat → String → Option JSVal
  | [], _ => none
  | m :: rest, nm =>
    match lastMixinVal h rest nm with
    | some v => some v
    | none =>
      match h.get m with
      | some om => lastVal om.props nm
      | none => none

theorem copyOwn_get_ne (src : List (String × JSVal)) :
    ∀ (h : Heap) (tgt x : Nat), x ≠ tgt →
      (copyOwnPropsExceptPrototype h tgt src).get x = h.get x := by
  induction src with
  | nil => intro h tgt x _; rfl
  | cons kv rest ih =>
    intro h tgt x hx
    by_cases hk : kv.1 = "prototype"
    · have step : copyOwnPropsExceptPrototype h tgt (kv :: rest)
          = copyOwnPropsExceptPrototype h tgt rest := by
        simp [copyOwnPropsExceptPrototype, List.foldl, hk]
      rw [step]
      exact ih h tgt x hx
    · have step : copyOwnPropsExceptPrototype h tgt (kv :: rest)
          = copyOwnPropsExceptPrototype (h.setProp tgt kv.1 kv.2) tgt rest := by
        simp [copyOwnPropsExceptPrototype, List.foldl, hk]
      rw [step, ih (h.setProp tgt kv.1 kv.2) tgt x hx,
        Heap.get_setProp_ne h tgt x kv.1 kv.2 hx]

theorem copyOwn_isSome (src : List (String × JSVal)) :
    ∀ (h : Heap) (tgt : Nat), (h.get tgt).isSome →
      ((copyOwnPropsExceptPrototype h tgt src).get tgt).isSome := by
  induction src with
  | nil => intro h tgt hs; exact hs
  | cons kv rest ih =>
    intro h tgt hs
    by_cases hk : kv.1 = "prototype"
    · have step : copyOwnPropsExceptPrototype h tgt (kv :: rest)
          = copyOwnPropsExceptPrototype h tgt rest := by
        simp [copyOwnPropsExceptPrototype, List.foldl, hk]
      rw [step]
      exact ih h tgt hs
    · have step : copyOwnPropsExceptPrototype h tgt (kv :: rest)
          = copyOwnPropsExceptPrototype (h.setProp tgt kv.1 kv.2) tgt rest := by
        simp [copyOwnPropsExceptPrototype, List.foldl, hk]
      rw [step]
      exact ih (h.setProp tgt kv.1 kv.2) tgt (Heap.isSome_setProp h tgt kv.1 kv.2 hs)

theorem copyOwn_getOwn (src : List (String × JSVal)) :
    ∀ (h : Heap) (tgt : Nat), (h.get tgt).isSome → ∀ nm : String, nm ≠ "prototype" →
      (copyOwnPropsExceptPrototype h tgt src).getOwn tgt nm =
        match lastVal src nm with
        | some v => some v
        | none => h.getOwn tgt nm := by
  induction src with
  | nil => intro h tgt _ nm _; simp [copyOwnPropsExceptPrototype, lastVal]
  | cons kv rest ih =>
    intro h tgt hs nm hnm
    by_cases hk : kv.1 = "prototype"
    · have hkv : kv.1 ≠ nm := by rw [hk]; exact fun hh => hnm hh.symm
      have step : copyOwnPropsExceptPrototype h tgt (kv :: rest)
          = copyOwnPropsExceptPrototype h tgt rest := by
        simp [copyOwnPropsExceptPrototype, List.foldl, hk]
      rw [step, ih h tgt hs nm hnm]
      simp only [lastVal, hkv, if_false]
      cases lastVal rest nm <;> rfl
    · have step : copyOwnPropsExceptPrototype h tgt (kv :: rest)
          = copyOwnPropsExceptPrototype (h.setProp tgt kv.1 kv.2) tgt rest := by
        simp [copyOwnPropsExceptPrototype, List.foldl, hk]
      rw [step, ih (h.setProp tgt kv.1 kv.2) tgt
        (Heap.isSome_setProp h tgt kv.1 kv.2 hs) nm hnm]
      by_cases hkv : kv.1 = nm
      · subst hkv
        rw [Heap.getOwn_setProp_eq h tgt kv.1 kv.2 hs]
        simp only [lastVal, if_pos rfl]
        cases lastVal rest kv.1 <;> rfl
      · have hkv' : nm ≠ kv.1 := fun hh => hkv hh.symm
        rw [Heap.getOwn_setProp_ne_key h tgt kv.1 nm kv.2 hkv']
        simp only [lastVal, hkv, if_false]
        cases lastVal rest nm <;> rfl

theorem lastMixinVal_congr (ms : List Nat) (h h' : Heap) (nm : String)
    (hsame : ∀ m ∈ ms, h'.get m = h.get m) :
    lastMixinVal h' ms nm = lastMixinVal h ms nm := by
  induction ms with
  | nil => rfl
  | cons m rest ih =>
    have hm := hsame m (List.mem_cons_self m rest)
    have hr := ih fun x hx => hsame x (List.mem_cons_of_mem m hx)
    simp [lastMixinVal, hm, hr]

theorem applyMixinsLoop_getOwn (ms : List Nat) :
    ∀ (h : Heap) (target tp : Nat),
      (h.get tp).isSome →
      (∀ m ∈ ms, ∃ om, h.get m = some om ∧ om.proto = none
        ∧ getA om.props "prototype" = none ∧ m ≠ tp) →
      ∀ nm : String, nm ≠ "prototype" →
      (ms.foldl (fun h' m => applyOneMixin h' target tp m) h).getOwn tp nm =
        match lastMixinVal h ms nm with
        | some v => some v
        | none => h.getOwn tp nm := by
  induction ms with
  | nil => intro h target tp _ _ nm _; simp [lastMixinVal]
  | cons m rest ih =>
    intro h target tp hs hms nm hnm
    obtain ⟨om, hom, homp, homk, hmtp⟩ := hms m (List.mem_cons_self m rest)
    have hproto : h.getProp m "prototype" = .undefined :=
      Heap.getProp_undef_isolated h m "prototype" om hom homk homp
    have hone : applyOneMixin h target tp m = copyOwnPropsExceptPrototype h tp om.props := by
      simp [applyOneMixin, hproto, hom]
    have hstep : (m :: rest).foldl (fun h' m => applyOneMixin h' target tp m) h
        = rest.foldl (fun h' m => applyOneMixin h' target tp m)
            (copyOwnPropsExceptPrototype h tp om.props) := by
      simp [List.foldl, hone]
    set h1 := copyOwnPropsExceptPrototype h tp om.props with hh1
    have h1s : (h1.get tp).isSome := copyOwn_isSome om.props h tp hs
    have h1ms : ∀ m' ∈ rest, ∃ om', h1.get m' = some om' ∧ om'.proto = none
        ∧ getA om'.props "prototype" = none ∧ m' ≠ tp := by
      intro m' hm'
      obtain ⟨om', hom', homp', homk', hmtp'⟩ :=
        hms m' (List.mem_cons_of_mem m hm')
      exact ⟨om', by rw [copyOwn_get_ne om.props h tp m' hmtp']; exact hom',
        homp', homk', hmtp'⟩
    have hsame : ∀ m' ∈ rest, h1.get m' = h.get m' := by
      intro m' hm'
      obtain ⟨_, _, _, _, hmtp'⟩ := hms m' (List.mem_cons_of_mem m hm')
      exact copyOwn_get_ne om.props h tp m' hmtp'
    rw [hstep, ih h1 target tp h1s h1ms nm hnm,
      lastMixinVal_congr rest h h1 nm hsame,
      copyOwn_getOwn om.props h tp hs nm hnm]
    simp only [lastMixinVal, hom]
    cases lastMixinVal h rest nm <;> cases lastVal om.props nm <;> rfl

/-- C8: for every applyMixins(target, mixins) call over plain-object mixins
(none aliasing the target prototype), and every member name: the member
observed on the target's instance-facing surface afterwards is the
definition from the latest-listed mixin that defines it — later mixins
silently overwrite identically named members from earlier mixins, and a
pre-existing member of the target is overwritten by any applied mixin that
defines the same name (when no mixin defines the name, the pre-existing
member is untouched).  applyMixins is a total function here, as in the
source: no collision ever raises an error. -/
theorem applyMixins_last_writer_wins
    (h : Heap) (target tp : Nat) (ms : List Nat) (nm : String)
    (htp : h.getProp target "prototype" = .ref tp)
    (hsome : (h.get tp).isSome)
    (hnm : nm ≠ "prototype")
    (hms : ∀ m ∈ ms, ∃ om, h.get m = some om ∧ om.proto = none
      ∧ getA om.props "prototype" = none ∧ m ≠ tp) :
    (applyMixins h target ms).getOwn tp nm =
      match lastMixinVal h ms nm with
      | some v => some v
      | none => h.getOwn tp nm := by
  rw [show applyMixins h target ms
      = ms.foldl (fun h' m => applyOneMixin h' target tp m) h by
    simp [applyMixins, htp]]
  exact applyMixinsLoop_getOwn ms h target tp hsome hms nm hnm

/-- A small heap for the mixin witness: ref 0 and ref 1 are plain-object
mixins both defining member m (values 1 and 2), ref 2 the target prototype
with a pre-existing m (value 0), ref 3 the target class. -/
def mixinDemoHeap : Heap :=
  let a0 := emptyHeap.alloc ⟨.plain, [("m", .num 1), ("x", .num 7)], none⟩
  let a1 := a0.1.alloc ⟨.plain, [("m", .num 2)], none⟩
  let a2 := a1.1.alloc ⟨.plain, [("m", .num 0)], none⟩
  let a3 := a2.1.alloc ⟨.plain, [("prototype", .ref a2.2)], none⟩
  a3.1

theorem applyMixins_last_writer_wins_witness :
    (applyMixins mixinDemoHeap 3 [0, 1]).getOwn 2 "m" =
      match lastMixinVal mixinDemoHeap [0, 1] "m" with
      | some v => some v
      | none => mixinDemoHeap.getOwn 2 "m" :=
  applyMixins_last_writer_wins mixinDemoHeap 3 2 [0, 1] "m"
    (by decide) (by decide) (by decide)
    (by
      intro m hm
      fin_cases hm
      · exact ⟨⟨.plain, [("m", .num 1), ("x", .num 7)], none⟩,
          by decide, by decide, by decide, by decide⟩
      · exact ⟨⟨.plain, [("m", .num 2)], none⟩,
          by decide, by decide, by decide, by decide⟩)

/-! ## The plain-object merge branch of _automergeAttr (claim C10) -/

theorem getA_mem (l : List (String × JSVal)) (k : String) (v : JSVal)
    (h : getA l k = some v) : (k, v) ∈ l := by
  induction l with
  | nil => simp [getA] at h
  | cons kv rest ih =>
    by_cases hk : kv.1 = k
    · simp [getA, hk] at h
      have hkv : kv = (k, v) := by
        obtain ⟨a, b⟩ := kv
        simp only at hk h
        rw [hk, h]
      exact List.mem_cons.mpr (Or.inl hkv.symm)
    · simp [getA, hk] at h
      exact List.mem_cons_of_mem kv (ih h)

theorem defaultsAddMissing_get_ne (src : List (String × JSVal)) :
    ∀ (h : Heap) (tgt x : Nat), x ≠ tgt →
      (defaultsAddMissing h tgt src).get x = h.get x := by
  induction src with
  | nil => intro h tgt x _; rfl
  | cons kv rest ih =>
    intro h tgt x hx
    by_cases hc : h.getOwnD tgt kv.1 = .undefined
    · have step : defaultsAddMissing h tgt (kv :: rest)
          = defaultsAddMissing (h.setProp tgt kv.1 kv.2) tgt rest := by
        simp [defaultsAddMissing, List.foldl, hc]
      rw [step, ih (h.setProp tgt kv.1 kv.2) tgt x hx,
        Heap.get_setProp_ne h tgt x kv.1 kv.2 hx]
    · have step : defaultsAddMissing h tgt (kv :: rest)
          = defaultsAddMissing h tgt rest := by
        simp [defaultsAddMissing, List.foldl, hc]
      rw [step]
      exact ih h tgt x hx

/-- The closed form of `_.defaults(tgt, src)` on the target object: the
original own properties survive untouched, and exactly the source entries
whose keys are not already present are appended, in source order. -/
theorem defaultsAddMissing_spec (src : List (String × JSVal)) :
    ∀ (h : Heap) (tgt : Nat) (o : Obj),
      h.get tgt = some o →
      (∀ kv ∈ o.props, kv.2 ≠ JSVal.undefined) →
      (∀ kv ∈ src, kv.2 ≠ JSVal.undefined) →
      (src.map Prod.fst).Nodup →
      (defaultsAddMissing h tgt src).get tgt =
        some { o with props :=
          o.props ++ src.filter (fun kv => (getA o.props kv.1).isNone) } := by
  induction src with
  | nil =>
    intro h tgt o hget _ _ _
    simpa using hget
  | cons kv rest ih =>
    intro h tgt o hget hoU hsU hN
    have hkvU : kv.2 ≠ JSVal.undefined := hsU kv (List.mem_cons_self kv rest)
    have hrestU : ∀ kv' ∈ rest, kv'.2 ≠ JSVal.undefined :=
      fun kv' h' => hsU kv' (List.mem_cons_of_mem kv h')
    rw [List.map_cons] at hN
    have hN' := List.nodup_cons.mp hN
    have hNk : kv.1 ∉ rest.map Prod.fst := hN'.1
    have hNr : (rest.map Prod.fst).Nodup := hN'.2
    have hOwnD : h.getOwnD tgt kv.1 = (getA o.props kv.1).getD .undefined := by
      simp [Heap.getOwnD, Heap.getOwn, hget]
    cases hA : getA o.props kv.1 with
    | some v =>
      have hvne : v ≠ JSVal.undefined := hoU (kv.1, v) (getA_mem o.props kv.1 v hA)
      have hcond : ¬ (h.getOwnD tgt kv.1 = .undefined) := by
        rw [hOwnD, hA]
        simpa using hvne
      have step : defaultsAddMissing h tgt (kv :: rest)
          = defaultsAddMissing h tgt rest := by
        simp [defaultsAddMissing, List.foldl, hcond]
      rw [step, ih h tgt o hget hoU hrestU hNr]
      simp [List.filter, hA]
    | none =>
      have hcond : h.getOwnD tgt kv.1 = .undefined := by rw [hOwnD, hA]; rfl
      have step : defaultsAddMissing h tgt (kv :: rest)
          = defaultsAddMissing (h.setProp tgt kv.1 kv.2) tgt rest := by
        simp [defaultsAddMissing, List.foldl, hcond]
      have happ : setA o.props kv.1 kv.2 = o.props ++ [kv] := by
        simpa using setA_eq_append o.props kv.1 kv.2 hA
      have hset : (h.setProp tgt kv.1 kv.2).get tgt
          = some { o with props := o.props ++ [kv] } := by
        rw [Heap.get_setProp_eq h tgt kv.1 kv.2 o hget, happ]
      have ho1U : ∀ kv' ∈ o.props ++ [kv], kv'.2 ≠ JSVal.undefined := by
        intro kv' hkv'
        rcases List.mem_append.mp hkv' with hmem | hmem
        · exact hoU kv' hmem
        · rw [List.mem_singleton.mp hmem]
          exact hkvU
      have hrec := ih (h.setProp tgt kv.1 kv.2) tgt
        { o with props := o.props ++ [kv] } hset ho1U hrestU hNr
      rw [step, hrec]
      have hfilt : rest.filter
            (fun kv' => (getA (o.props ++ [kv]) kv'.1).isNone)
          = rest.filter (fun kv' => (getA o.props kv'.1).isNone) := by
        apply filter_congr_mem
        intro kv' hkv'
        have hkne : kv.1 ≠ kv'.1 := by
          intro hh
          exact hNk (hh ▸ List.mem_map_of_mem Prod.fst hkv')
        rw [getA_append]
        cases hA' : getA o.props kv'.1 with
        | some v => rfl
        | none => simp [getA, hkne]
      have hkvf : (getA o.props kv.1).isNone = true := by rw [hA]; rfl
      simp [hfilt, List.filter, hkvf]

/-- getOwn only depends on the object stored at the reference. -/
theorem getOwn_congr (h1 h2 : Heap) (x : Nat) (k : String)
    (hx : h1.get x = h2.get x) : h1.getOwn x k = h2.getOwn x k := by
  simp [Heap.getOwn, hx]

theorem getOwn_setProp_other (h : Heap) (r x : Nat) (k k' : String) (v : JSVal)
    (hx : x ≠ r) : (h.setProp r k v).getOwn x k' = h.getOwn x k' :=
  getOwn_congr _ _ x k' (Heap.get_setProp_ne h r x k v hx)

theorem jsIsFunction_plain (h : Heap) (r : Nat) (o : Obj)
    (hr : h.get r = some o) (hk : o.kind = .plain) :
    jsIsFunction h (.ref r) = false := by
  simp [jsIsFunction, hr, hk]

theorem jsIsEmpty_plain_ne (h : Heap) (r : Nat) (o : Obj)
    (hr : h.get r = some o) (hk : o.kind = .plain) (hne : o.props ≠ []) :
    jsIsEmpty h (.ref r) = false := by
  simp [jsIsEmpty, hr, hk]
  exact hne

/-- C10: in the both-plain-keyed-structures branch of _automergeAttr, the
merged value written back is the very same object, by reference, as the
subclass's own candidate (`_.defaults` mutates it in place, appending only
those parent entries whose keys are not already present); the parent's
value object is never mutated; and the only properties the call writes are
the named attribute on the class and — exactly when the candidate was found
on the instance-facing surface (onP) — that same attribute on the surface:
every other object, and every other own property of the class and of the
surface, is unchanged. -/
theorem automergeAttr_plain_merge_frame
    (h : Heap) (cls clsProto pp : Nat) (attr : String) (cr pr : Nat)
    (onP : Bool) (co po : Obj)
    (hres : automergeResolve h cls clsProto attr = (.ref cr, onP))
    (hclsS : (h.get cls).isSome)
    (hprotoS : (h.get clsProto).isSome)
    (hco : h.get cr = some co) (hck : co.kind = .plain) (hcne : co.props ≠ [])
    (hpv : h.getProp pp attr = .ref pr)
    (hpo : h.get pr = some po) (hpk : po.kind = .plain) (hpne : po.props ≠ [])
    (hrr : cr ≠ pr)
    (hc1 : cr ≠ cls) (hc2 : cr ≠ clsProto)
    (hp1 : pr ≠ cls) (hp2 : pr ≠ clsProto)
    (hcp : cls ≠ clsProto)
    (hcoU : ∀ kv ∈ co.props, kv.2 ≠ JSVal.undefined)
    (hpoU : ∀ kv ∈ po.props, kv.2 ≠ JSVal.undefined)
    (hpoN : (po.props.map Prod.fst).Nodup) :
    (_automergeAttr h cls clsProto (some pp) attr).2 = true
    ∧ (_automergeAttr h cls clsProto (some pp) attr).1.get cr =
        some { co with props :=
          co.props ++ po.props.filter (fun kv => (getA co.props kv.1).isNone) }
    ∧ (_automergeAttr h cls clsProto (some pp) attr).1.get pr = some po
    ∧ (_automergeAttr h cls clsProto (some pp) attr).1.getOwn cls attr =
        some (.ref cr)
    ∧ (onP = true →
        (_automergeAttr h cls clsProto (some pp) attr).1.getOwn clsProto attr =
          some (.ref cr))
    ∧ (onP = false →
        ∀ k, (_automergeAttr h cls clsProto (some pp) attr).1.getOwn clsProto k =
          h.getOwn clsProto k)
    ∧ (∀ x, x ≠ cr → x ≠ cls → x ≠ clsProto →
        (_automergeAttr h cls clsProto (some pp) attr).1.get x = h.get x)
    ∧ (∀ k, k ≠ attr →
        (_automergeAttr h cls clsProto (some pp) attr).1.getOwn cls k =
          h.getOwn cls k)
    ∧ (∀ k, k ≠ attr →
        (_automergeAttr h cls clsProto (some pp) attr).1.getOwn clsProto k =
          h.getOwn clsProto k) := by
  have hfc := jsIsFunction_plain h cr co hco hck
  have hfp := jsIsFunction_plain h pr po hpo hpk
  have hec := jsIsEmpty_plain_ne h cr co hco hck hcne
  have hep := jsIsEmpty_plain_ne h pr po hpo hpk hpne
  have heq : _automergeAttr h cls clsProto (some pp) attr
      = (if onP
          then ((defaultsAddMissing h cr po.props).setProp cls attr
              (.ref cr)).setProp clsProto attr (.ref cr)
          else (defaultsAddMissing h cr po.props).setProp cls attr (.ref cr),
         true) := by
    simp only [_automergeAttr, hres, getPropOpt]
    rw [hpv]
    simp [hrr, hfc, hfp, hec, hep, jsDefaults, hpo]
  have hDcr := defaultsAddMissing_spec po.props h cr co hco hcoU hpoU hpoN
  have hDfr : ∀ x, x ≠ cr → (defaultsAddMissing h cr po.props).get x = h.get x :=
    fun x hx => defaultsAddMissing_get_ne po.props h cr x hx
  have hDclsS : ((defaultsAddMissing h cr po.props).get cls).isSome := by
    rw [hDfr cls (Ne.symm hc1)]
    exact hclsS
  have hDprotoS : ((defaultsAddMissing h cr po.props).get clsProto).isSome := by
    rw [hDfr clsProto (Ne.symm hc2)]
    exact hprotoS
  rw [heq]
  cases onP with
  | false =>
    simp only [if_false, Bool.false_eq_true]
    refine ⟨by trivial, ?_, ?_, ?_, ?_, ?_, ?_, ?_, ?_⟩
    · rw [Heap.get_setProp_ne _ cls cr attr (.ref cr) hc1, hDcr]
    · rw [Heap.get_setProp_ne _ cls pr attr (.ref cr) hp1,
        hDfr pr (Ne.symm hrr), hpo]
    · exact Heap.getOwn_setProp_eq _ cls attr (.ref cr) hDclsS
    · intro hh
      exact absurd hh (by simp)
    · intro _ k
      rw [getOwn_setProp_other _ cls clsProto attr k (.ref cr) (Ne.symm hcp)]
      exact getOwn_congr _ _ clsProto k (hDfr clsProto (Ne.symm hc2))
    · intro x hxc hxcls hxp
      rw [Heap.get_setProp_ne _ cls x attr (.ref cr) hxcls, hDfr x hxc]
    · intro k hk
      rw [Heap.getOwn_setProp_ne_key _ cls attr k (.ref cr) hk]
      exact getOwn_congr _ _ cls k (hDfr cls (Ne.symm hc1))
    · intro k _
      rw [getOwn_setProp_other _ cls clsProto attr k (.ref cr) (Ne.symm hcp)]
      exact getOwn_congr _ _ clsProto k (hDfr clsProto (Ne.symm hc2))
  | true =>
    simp only [if_true]
    have h2protoS : (((defaultsAddMissing h cr po.props).setProp cls attr
        (.ref cr)).get clsProto).isSome := by
      rw [Heap.get_setProp_ne _ cls clsProto attr (.ref cr) (Ne.symm hcp)]
      exact hDprotoS
    refine ⟨by trivial, ?_, ?_, ?_, ?_, ?_, ?_, ?_, ?_⟩
    · rw [Heap.get_setProp_ne _ clsProto cr attr (.ref cr) hc2,
        Heap.get_setProp_ne _ cls cr attr (.ref cr) hc1, hDcr]
    · rw [Heap.get_setProp_ne _ clsProto pr attr (.ref cr) hp2,
        Heap.get_setProp_ne _ cls pr attr (.ref cr) hp1,
        hDfr pr (Ne.symm hrr), hpo]
    · rw [getOwn_setProp_other _ clsProto cls attr attr (.ref cr) hcp]
      exact Heap.getOwn_setProp_eq _ cls attr (.ref cr) hDclsS
    · intro _
      exact Heap.getOwn_setProp_eq _ clsProto attr (.ref cr) h2protoS
    · intro hh
      exact absurd hh (by simp)
    · intro x hxc hxcls hxp
      rw [Heap.get_setProp_ne _ clsProto x attr (.ref cr) hxp,
        Heap.get_setProp_ne _ cls x attr (.ref cr) hxcls, hDfr x hxc]
    · intro k hk
      rw [getOwn_setProp_other _ clsProto cls attr k (.ref cr) hcp,
        Heap.getOwn_setProp_ne_key _ cls attr k (.ref cr) hk]
      exact getOwn_congr _ _ cls k (hDfr cls (Ne.symm hc1))
    · intro k hk
      rw [Heap.getOwn_setProp_ne_key _ clsProto attr k (.ref cr) hk,
        getOwn_setProp_other _ cls clsProto attr k (.ref cr) (Ne.symm hcp)]
      exact getOwn_congr _ _ clsProto k (hDfr clsProto (Ne.symm hc2))

/-- A heap for the frame witness: ref 0 is the subclass's candidate object
(key x), declared on the prototype ref 2 under attribute e; ref 1 the
parent's value (keys x, y) reachable via the parent class ref 3; ref 4 the
subclass. -/
def frameDemoHeap : Heap :=
  let a0 := emptyHeap.alloc ⟨.plain, [("x", .num 1)], none⟩
  let a1 := a0.1.alloc ⟨.plain, [("x", .num 9), ("y", .num 2)], none⟩
  let a2 := a1.1.alloc ⟨.plain, [("e", .ref 0)], none⟩
  let a3 := a2.1.alloc ⟨.plain, [("e", .ref 1)], none⟩
  let a4 := a3.1.alloc ⟨.plain, [("prototype", .ref 2)], none⟩
  a4.1

theorem automergeAttr_plain_merge_frame_witness :
    (_automergeAttr frameDemoHeap 4 2 (some 3) "e").2 = true
    ∧ (_automergeAttr frameDemoHeap 4 2 (some 3) "e").1.get 0 =
        some ⟨.plain, [("x", .num 1), ("y", .num 2)], none⟩
    ∧ (_automergeAttr frameDemoHeap 4 2 (some 3) "e").1.get 1 =
        some ⟨.plain, [("x", .num 9), ("y", .num 2)], none⟩ := by
  have hmain := automergeAttr_plain_merge_frame frameDemoHeap 4 2 3 "e" 0 1 true
    ⟨.plain, [("x", .num 1)], none⟩ ⟨.plain, [("x", .num 9), ("y", .num 2)], none⟩
    (by decide) (by decide) (by decide) (by decide) (by decide) (by decide)
    (by decide) (by decide) (by decide) (by decide) (by decide) (by decide)
    (by decide) (by decide) (by decide) (by decide) (by decide) (by decide)
    (by decide)
  refine ⟨hmain.1, ?_, hmain.2.2.1⟩
  rw [hmain.2.1]
  rfl

end Spina
